import Mathlib

/-!
# Verification of `StableDiffusionMemoryOptimizedPipeline`
(`src/pipelines/stable_diffusion/impl_memory_optimized.rs`)

Shallow embedding of the memory-optimized Stable Diffusion pipeline.

Modelling conventions:
* `f32` scalars are modelled as `ℚ`; the claims under study concern the
  algebraic dataflow (which linear combination is computed, what is clamped,
  what is concatenated), not IEEE rounding.
* `ndarray` tensors are nested lists; `Array4<f32>` of shape `(b, c, h, w)`
  becomes `T4 = List (List (List (List ℚ)))` in the same axis order, and
  concatenation along `Axis(0)` is list append.
* External ONNX inference sessions (`text_encoder`, `unet`, `vae_decoder`)
  and the tokenizer are opaque collaborators: total functions packaged in an
  `Env` structure.  Loading/dropping a session is recorded in an explicit
  event trace (`StageEvent`), which is what the residency claims are about.
  Rust drops a session when its binding leaves scope, including during `?`
  propagation (unwinding), so every modelled scope emits its `drop` event on
  both the success and the error path.
* Rust panics (`assert_eq!`, `Option::unwrap` on `None`, and debug-mode
  overflow-checked `usize` subtraction) are modelled as distinguished
  `PipeError` values, kept separate from `anyhow` errors by constructor.
* `StdRng` is abstracted: the generator state is an opaque `Nat` threaded
  through `Env.randn` and `Scheduler.step` exactly where the source threads
  `&mut rng`.
* Rust `%` panics on a zero modulus; `Nat.mod` is total.  Theorems about the
  callback gate therefore carry the hypothesis `1 ≤ steps * order` (real
  schedulers have order ≥ 1), under which the two semantics agree.
-/

namespace Diffusers

/-- Scalar type standing in for `f32`. -/
abbrev Scalar := ℚ

/-- 1-D tensor. -/
abbrev T1 := List Scalar
/-- 2-D tensor (`Array2<f32>`). -/
abbrev T2 := List T1
/-- 3-D tensor; also used for one batch element of an `Array4`. -/
abbrev T3 := List T2
/-- 4-D tensor (`Array4<f32>`), axis order `(batch, channel, h, w)`. -/
abbrev T4 := List T3

/-- An `image::Rgb32FImage` pixel buffer: the flat `Vec<f32>` handed to
`Rgb32FImage::from_raw`. -/
abbrev Image := List Scalar

/-- Abstract `StdRng` state. -/
abbrev Rng := Nat

/-- The three model stages of the pipeline
(`load_text_encoder` / `load_unet` / `load_vae_decoder`). -/
inductive ModelStage where
  | textEncoder
  | denoiser
  | latentDecoder
deriving DecidableEq

/-- A session lifecycle event: an ONNX `Session` being constructed or
dropped. -/
inductive StageEvent where
  | load (s : ModelStage)
  | drop (s : ModelStage)
deriving DecidableEq

/-- The session-lifecycle trace of one call. -/
abbrev Trace := List StageEvent

/-- Failure modes of the pipeline.  Constructors ending in `Panic` model Rust
panics (which abort rather than returning `anyhow::Error` to the caller);
the others model `anyhow` errors surfaced through `Result`. -/
inductive PipeError where
  /-- `anyhow::bail!` for width/height not divisible by 8 (txt2img). -/
  | invalidDimensions (width height : Nat)
  /-- `assert_eq!(batch_size, negative_prompt.len())` failing in
  `encode_prompt`. -/
  | assertEqPanic
  /-- `noise_pred_chunks.next().unwrap()` failing in the guidance split. -/
  | unwrapNonePanic
  /-- debug-mode underflow of `timesteps.len() - options.steps * S::order()`. -/
  | usizeUnderflowPanic
  /-- `Rgb32FImage::from_raw` returning `None` in `to_image`. -/
  | imageConstruction
deriving DecidableEq

instance {ε α : Type} [DecidableEq ε] [DecidableEq α] : DecidableEq (Except ε α) := by
  intro a b
  cases a <;> cases b <;> first
    | (apply isFalse; intro h; exact Except.noConfusion h)
    | (rename_i x y
       exact if h : x = y then isTrue (by rw [h]) else
         isFalse (fun hc => h (by cases hc; rfl)))

/-! ## Elementwise tensor operations -/

/-- Elementwise map over a 3-D tensor. -/
def mapT3 (f : Scalar → Scalar) (t : T3) : T3 :=
  t.map (fun p => p.map (fun r => r.map f))

/-- Elementwise map over a 4-D tensor. -/
def mapT4 (f : Scalar → Scalar) (t : T4) : T4 :=
  t.map (mapT3 f)

/-- Scalar multiplication of a 3-D tensor (`s * t`). -/
def smulT3 (s : Scalar) (t : T3) : T3 := mapT3 (fun x => s * x) t

/-- Scalar multiplication of a 4-D tensor (`s * t`; `t * s` coincides since
`ℚ` is commutative). -/
def smulT4 (s : Scalar) (t : T4) : T4 := mapT4 (fun x => s * x) t

/-- Elementwise binary operation on 1-D tensors. -/
def map2T1 (f : Scalar → Scalar → Scalar) (a b : T1) : T1 := List.zipWith f a b
/-- Elementwise binary operation on 2-D tensors. -/
def map2T2 (f : Scalar → Scalar → Scalar) (a b : T2) : T2 :=
  List.zipWith (map2T1 f) a b
/-- Elementwise binary operation on 3-D tensors. -/
def map2T3 (f : Scalar → Scalar → Scalar) (a b : T3) : T3 :=
  List.zipWith (map2T2 f) a b
/-- Elementwise binary operation on 4-D tensors. -/
def map2T4 (f : Scalar → Scalar → Scalar) (a b : T4) : T4 :=
  List.zipWith (map2T3 f) a b

/-- Row-major flattening of a 4-D tensor, as `ndarray`'s `into_iter` yields
it. -/
def flattenT4 (t : T4) : List Scalar := t.flatten.flatten.flatten

/-- Rust's `f32::clamp(0.0, 1.0)`. -/
def clamp01 (x : Scalar) : Scalar := min (max x 0) 1

/-! ## External collaborators -/

/-- The opaque collaborators of the pipeline: the tokenizer+text-encoder
composition, the UNet session, the VAE decoder session, the long-prompt
weighting routine (`crate::pipelines::lpw`, outside this file's source), the
normal sampler behind `Array4::random_using`, and the `thread_rng` draw used
when no seed is supplied.  `lpw` is the `StableDiffusionOptions::lpw` toggle
fixed at pipeline construction. -/
structure Env where
  /-- `tokenizer.encode_for_text_model` followed by running the text-encoder
  session: one embedding row (sequence × hidden) per batch element. -/
  encodeText : List String → T3
  /-- `crate::pipelines::lpw::get_weighted_text_embeddings` (conditional
  embeddings, optional unconditional embeddings). -/
  lpwEmbed : List String → Option (List String) → T3 × Option T3
  /-- The UNet session: latent model input, timestep, encoder hidden states
  `→` noise prediction. -/
  unet : T4 → Scalar → T3 → T4
  /-- The VAE decoder session on one batch element `(4, h, w) → (3, H, W)`. -/
  vae : T3 → T3
  /-- `Array4::random_using(shape, StandardNormal, rng)`. -/
  randn : Rng → Nat × Nat × Nat × Nat → T4 × Rng
  /-- The value `rand::thread_rng().gen::<u64>()` would produce. -/
  threadSeed : Nat
  /-- `StableDiffusionOptions::lpw`. -/
  lpw : Bool

/-- The `DiffusionScheduler` collaborator.  `timesteps n` is the sequence
`timesteps()` returns after `set_timesteps n`. -/
structure Scheduler where
  timesteps : Nat → List Scalar
  initNoiseSigma : Scalar
  order : Nat
  scaleModelInput : T4 → Scalar → T4
  step : T4 → Scalar → T4 → Rng → T4 × Rng

/-- `StableDiffusionCallback`: the mutually exclusive progress-callback
variants, each with an invocation frequency. -/
inductive StableDiffusionCallback where
  | progress (frequency : Nat) (cb : Nat → Scalar → Bool)
  | latents (frequency : Nat) (cb : Nat → Scalar → T4 → Bool)
  | decoded (frequency : Nat) (cb : Nat → Scalar → List Image → Bool)
  | approximateDecoded (frequency : Nat) (cb : Nat → Scalar → List Image → Bool)

/-- The frequency carried by a callback variant. -/
def StableDiffusionCallback.frequency : StableDiffusionCallback → Nat
  | .progress f _ => f
  | .latents f _ => f
  | .decoded f _ => f
  | .approximateDecoded f _ => f

/-- Whether the variant is `Decoded` or `ApproximateDecoded` (the two that
additionally require `i != 0`). -/
def StableDiffusionCallback.isDecodedVariant : StableDiffusionCallback → Bool
  | .decoded _ _ => true
  | .approximateDecoded _ _ => true
  | _ => false

/-- `StableDiffusionTxt2ImgOptions`. -/
structure StableDiffusionTxt2ImgOptions where
  height : Nat
  width : Nat
  guidanceScale : Scalar
  steps : Nat
  seed : Option Nat
  negativePrompt : Option (List String)
  callback : Option StableDiffusionCallback

/-! ## `to_image` and the two latent decoders -/

/-- `to_image`: clamp every element to `[0,1]`, flatten row-major, and build
an `Rgb32FImage`, failing (`from_raw` returns `None`) unless the buffer has
exactly `width * height * 3` samples. -/
def to_image (width height : Nat) (arr : T4) : Except PipeError Image :=
  if ((flattenT4 arr).map clamp01).length = width * height * 3 then
    .ok ((flattenT4 arr).map clamp01)
  else .error .imageConstruction

/-- The per-chunk collection loop (`for chunk { ... images.push(...?) }`). -/
def collectImages (f : T3 → Except PipeError Image) :
    List T3 → Except PipeError (List Image)
  | [] => .ok []
  | c :: cs =>
    match f c with
    | .error e => .error e
    | .ok img =>
      match collectImages f cs with
      | .error e => .error e
      | .ok imgs => .ok (img :: imgs)

/-- The fixed 4×3 projection matrix of `approximate_decode_latents`
(`Array2::from_shape_vec((4, 3), ...)`, row-major). -/
def approxCoefs : T2 :=
  [[0.298, 0.207, 0.208],
   [0.187, 0.286, 0.173],
   [-0.158, 0.189, 0.264],
   [-0.184, -0.271, -0.473]]

/-- `einsum("blxy,lr->bxyr", latents, coefs)`:
`out[b][x][y][r] = Σ_l latents[b][l][x][y] * coefs[l][r]`. -/
def einsum_blxy_lr (lat : T4) (coefs : T2) : T4 :=
  lat.map (fun sample =>
    let X := (sample.headD []).length
    let Y := ((sample.headD []).headD []).length
    let R := (coefs.headD []).length
    (List.range X).map (fun x =>
      (List.range Y).map (fun y =>
        (List.range R).map (fun r =>
          ((sample.zip coefs).map
            (fun p => ((p.1.getD x []).getD y 0) * (p.2.getD r 0))).sum))))

/-- `approximate_decode_latents`: project the 4 latent channels to RGB with
`approxCoefs`, scale by `1.2`, and build one clamped image per batch
element.  No model stage is loaded. -/
def approximate_decode_latents (latents : T4) : Except PipeError (List Image) :=
  let approx := einsum_blxy_lr latents approxCoefs
  collectImages
    (fun chunk =>
      let chunk := mapT3 (fun x => x * 1.2) chunk
      to_image chunk.length (chunk.headD []).length [chunk])
    approx

/-- `permuted_axes([0, 2, 3, 1])` on one batch element:
`(3, H, W) → (H, W, 3)`. -/
def permute_hwc (t : T3) : T3 :=
  let H := (t.headD []).length
  let W := ((t.headD []).headD []).length
  (List.range H).map (fun h =>
    (List.range W).map (fun w =>
      t.map (fun chan => (chan.getD h []).getD w 0)))

/-- `decode_latents`: rescale by `1.0 / 0.18215`, load the VAE decoder, run
each batch element through it, map its `[-1,1]` output to `[0,1]` with
`(f / 2.0 + 0.5).clamp(0.0, 1.0)`, transpose to channel-last and build each
image.  The session is dropped when the function returns, also on the error
path (unwinding), so the trace is emitted unconditionally. -/
def decode_latents (env : Env) (latents : T4) :
    Except PipeError (List Image) × Trace :=
  let latents := smulT4 (1 / 0.18215) latents
  (collectImages
    (fun chunk =>
      let out := env.vae chunk
      let f := mapT3 (fun x => clamp01 (x / 2 + 0.5)) (permute_hwc out)
      to_image f.length (f.headD []).length [f])
    latents,
   [.load .latentDecoder, .drop .latentDecoder])

/-! ## `encode_prompt` -/

/-- `Prompt::default_batched(batch_size)`: a batch of empty strings. -/
def default_batched (n : Nat) : List String := List.replicate n ""

/-- The negative-prompt normalization at the top of `encode_prompt`: a single
negative prompt is replicated to the prompt batch size when `batch_size > 1`;
otherwise `assert_eq!(batch_size, negative_prompt.len())` panics on any
mismatch. -/
def resolveNegativePrompt (batchSize : Nat) (negative : Option (List String)) :
    Except PipeError (Option (List String)) :=
  match negative with
  | some np =>
    if batchSize > 1 && np.length == 1 then
      .ok (some (List.replicate batchSize (np.headD "")))
    else if batchSize == np.length then .ok (some np)
    else .error .assertEqPanic
  | none => .ok none

/-- `encode_prompt`: normalize the negative prompt, load the text encoder,
encode, and (under classifier-free guidance) concatenate the unconditional
embeddings before the conditional ones along `Axis(0)`.  The text-encoder
session is dropped when the function returns; on the `assert_eq!` panic it
was never loaded, so that trace is empty. -/
def encode_prompt (env : Env) (prompt : List String)
    (do_classifier_free_guidance : Bool) (negative : Option (List String)) :
    Except PipeError T3 × Trace :=
  let batch_size := prompt.length
  match resolveNegativePrompt batch_size negative with
  | .error e => (.error e, [])
  | .ok negative =>
    let text_embeddings :=
      if env.lpw then
        let embeddings := env.lpwEmbed prompt
          (if do_classifier_free_guidance then
            negative.or (some (default_batched batch_size))
          else negative)
        if do_classifier_free_guidance then
          match embeddings.2 with
          | some uncond_embeddings => uncond_embeddings ++ embeddings.1
          | none => embeddings.1
        else embeddings.1
      else
        let text_embeddings := env.encodeText prompt
        if do_classifier_free_guidance then
          env.encodeText (negative.getD (default_batched batch_size)) ++
            text_embeddings
        else text_embeddings
    (.ok text_embeddings, [.load .textEncoder, .drop .textEncoder])

/-! ## The denoising loop -/

/-- The classifier-free-guidance recombination exactly as the source performs
it: `axis_iter(Axis(0))` is advanced twice, so `noise_pred_uncond` is batch
row 0 and `noise_pred_text` is batch row 1 (each re-expanded with
`insert_axis(Axis(0))`), recombined as
`uncond + guidance_scale * (text - uncond)`.  `None` models the
`.unwrap()` panic when fewer than two batch rows exist. -/
def guidanceCombine (guidance_scale : Scalar) (noise_pred : T4) : Option T4 :=
  match noise_pred with
  | noise_pred_uncond :: noise_pred_text :: _ =>
    some (map2T4 (· + ·) [noise_pred_uncond]
      (smulT4 guidance_scale
        (map2T4 (· - ·) [noise_pred_text] [noise_pred_uncond])))
  | _ => none

/-- The guidance recombination as the spec words it, for comparison with
`guidanceCombine`: split the prediction for a batch of `B` prompts into its
first `B` rows (unconditional) and last `B` rows (conditional) and recombine
row-wise as `uncond + scale * (cond - uncond)`. -/
def guidanceCombineSpec (batchSize : Nat) (guidance_scale : Scalar)
    (noise_pred : T4) : T4 :=
  List.zipWith
    (fun uncond cond =>
      map2T3 (· + ·) uncond
        (smulT3 guidance_scale (map2T3 (· - ·) cond uncond)))
    (noise_pred.take batchSize) (noise_pred.drop batchSize)

/-- One recorded invocation of the denoiser: the latent model input as built
before `scale_model_input` (this is where batch duplication happens, or not)
and the encoder hidden states passed alongside it. -/
structure DenoiserCall where
  lmi : T4
  timestep : Scalar
  hidden : T3
deriving DecidableEq

/-- The result of the denoising loop: the final `(latents, rng)` (or the
propagated error), the session trace emitted inside the loop, the denoiser
invocations, and the indices of the loop iterations that executed. -/
structure LoopOut where
  res : Except PipeError (T4 × Rng)
  trace : Trace
  calls : List DenoiserCall
  executed : List Nat

/-- The callback gate of line 320, factored out:
`i == timesteps.len() - 1 || ((i + 1) > num_warmup_steps && (i + 1) % S::order() == 0)`
together with the per-variant guard of the `match` arms
(`i % frequency == 0`, plus `i != 0` for the decoding variants). -/
def cbFires (cb : StableDiffusionCallback) (total numWarmup order i : Nat) :
    Bool :=
  (i == total - 1 || (i + 1 > numWarmup && (i + 1) % order == 0)) &&
  (match cb with
   | .progress frequency _ => i % frequency == 0
   | .latents frequency _ => i % frequency == 0
   | .decoded frequency _ => !(i == 0) && i % frequency == 0
   | .approximateDecoded frequency _ => !(i == 0) && i % frequency == 0)

/-- Running the active callback arm: the user function receives the current
step index, the timestep as `f32`, and for the payload variants the current
latents or their (possibly approximate) decode.  Only the `Decoded` arm
loads a model stage (`decode_latents` inside the UNet scope). -/
def runCallback (env : Env) (cb : StableDiffusionCallback) (i : Nat)
    (t : Scalar) (latents : T4) : Except PipeError Bool × Trace :=
  match cb with
  | .progress _ f => (.ok (f i t), [])
  | .latents _ f => (.ok (f i t latents), [])
  | .decoded _ f =>
    let d := decode_latents env latents
    ((match d.1 with
      | .ok images => .ok (f i t images)
      | .error e => .error e), d.2)
  | .approximateDecoded _ f =>
    ((match approximate_decode_latents latents with
      | .ok images => .ok (f i t images)
      | .error e => .error e), [])

/-- One iteration of the loop body up to and including `scheduler.step`:
build the latent model input (duplicated along `Axis(0)` under guidance),
apply `scale_model_input`, run the UNet, recombine under guidance, and let
the scheduler produce the previous sample. -/
def loopIter (env : Env) (sched : Scheduler) (doCfg : Bool)
    (guidance_scale : Scalar) (text_embeddings : T3) (t : Scalar)
    (latents : T4) (rng : Rng) :
    Except PipeError (T4 × Rng) × DenoiserCall :=
  let latent_model_input := if doCfg then latents ++ latents else latents
  let scaled := sched.scaleModelInput latent_model_input t
  let noise_pred := env.unet scaled t text_embeddings
  let call : DenoiserCall := ⟨latent_model_input, t, text_embeddings⟩
  match (if doCfg then guidanceCombine guidance_scale noise_pred
         else some noise_pred) with
  | none => (.error .unwrapNonePanic, call)
  | some noise_pred => (.ok (sched.step noise_pred t latents rng), call)

/-- The state transformer of one iteration (used to phrase run histories). -/
def iterStep (env : Env) (sched : Scheduler) (doCfg : Bool)
    (guidance_scale : Scalar) (text_embeddings : T3) (t : Scalar)
    (s : T4 × Rng) : Except PipeError (T4 × Rng) :=
  (loopIter env sched doCfg guidance_scale text_embeddings t s.1 s.2).1

/-- The pure reference recurrence: the `(latents, rng)` state after folding
the loop body over a list of timesteps (no callback interleaved). -/
def statesAfter (env : Env) (sched : Scheduler) (doCfg : Bool)
    (guidance_scale : Scalar) (text_embeddings : T3) :
    List Scalar → T4 × Rng → Except PipeError (T4 × Rng)
  | [], s => .ok s
  | t :: ts, s =>
    match iterStep env sched doCfg guidance_scale text_embeddings t s with
    | .error e => .error e
    | .ok s' => statesAfter env sched doCfg guidance_scale text_embeddings ts s'

/-- The denoising `for` loop over the (index, timestep) sequence, including
the callback gate and cooperative cancellation (`break` on `false`). -/
def denoiseLoop (env : Env) (sched : Scheduler) (doCfg : Bool)
    (guidance_scale : Scalar) (text_embeddings : T3)
    (callback : Option StableDiffusionCallback) (numWarmup total : Nat) :
    List Scalar → Nat → T4 → Rng → LoopOut
  | [], _, latents, rng => ⟨.ok (latents, rng), [], [], []⟩
  | t :: ts, i, latents, rng =>
    match loopIter env sched doCfg guidance_scale text_embeddings t latents rng with
    | (.error e, call) => ⟨.error e, [], [call], [i]⟩
    | (.ok (latents', rng'), call) =>
      match callback with
      | none =>
        let rest := denoiseLoop env sched doCfg guidance_scale text_embeddings
          none numWarmup total ts (i + 1) latents' rng'
        ⟨rest.res, rest.trace, call :: rest.calls, i :: rest.executed⟩
      | some cb =>
        if cbFires cb total numWarmup sched.order i then
          match runCallback env cb i t latents' with
          | (.error e, trc) => ⟨.error e, trc, [call], [i]⟩
          | (.ok keepGoing, trc) =>
            if keepGoing then
              let rest := denoiseLoop env sched doCfg guidance_scale
                text_embeddings (some cb) numWarmup total ts (i + 1) latents' rng'
              ⟨rest.res, trc ++ rest.trace, call :: rest.calls, i :: rest.executed⟩
            else ⟨.ok (latents', rng'), trc, [call], [i]⟩
        else
          let rest := denoiseLoop env sched doCfg guidance_scale text_embeddings
            (some cb) numWarmup total ts (i + 1) latents' rng'
          ⟨rest.res, rest.trace, call :: rest.calls, i :: rest.executed⟩

/-! ## `txt2img` -/

/-- The initial latents: a standard-normal sample of shape
`(batch_size, 4, height / 8, width / 8)` scaled by `init_noise_sigma`. -/
def initialLatents (env : Env) (sched : Scheduler) (batchSize : Nat)
    (opts : StableDiffusionTxt2ImgOptions) (rng : Rng) : T4 × Rng :=
  let p := env.randn rng (batchSize, 4, opts.height / 8, opts.width / 8)
  (smulT4 sched.initNoiseSigma p.1, p.2)

/-- The result of one `txt2img` call: the images (or the failure), the
session-lifecycle trace, the recorded denoiser invocations, and the executed
loop-iteration indices. -/
structure RunOut where
  res : Except PipeError (List Image)
  trace : Trace
  calls : List DenoiserCall
  executed : List Nat

/-- `txt2img`.  The `usize` subtraction
`timesteps.len() - options.steps * S::order()` is modelled with debug-mode
overflow checking: underflow is a panic (`usizeUnderflowPanic`) raised before
the UNet is loaded.  The UNet session is dropped at the end of its block on
every path (including error propagation by `?`, which unwinds through the
block). -/
def txt2img (env : Env) (sched : Scheduler) (prompt : List String)
    (opts : StableDiffusionTxt2ImgOptions) : RunOut :=
  let seed := opts.seed.getD env.threadSeed
  let rng : Rng := seed
  if !(opts.height % 8 == 0) || !(opts.width % 8 == 0) then
    ⟨.error (.invalidDimensions opts.width opts.height), [], [], []⟩
  else
    let batch_size := prompt.length
    let doCfg := opts.guidanceScale > 1
    match encode_prompt env prompt doCfg opts.negativePrompt with
    | (.error e, tr) => ⟨.error e, tr, [], []⟩
    | (.ok text_embeddings, tr0) =>
      let s0 := initialLatents env sched batch_size opts rng
      let timesteps := sched.timesteps opts.steps
      if opts.steps * sched.order ≤ timesteps.length then
        let num_warmup_steps := timesteps.length - opts.steps * sched.order
        let out := denoiseLoop env sched doCfg opts.guidanceScale
          text_embeddings opts.callback num_warmup_steps timesteps.length
          timesteps 0 s0.1 s0.2
        match out.res with
        | .error e =>
          ⟨.error e, tr0 ++ [.load .denoiser] ++ out.trace ++ [.drop .denoiser],
           out.calls, out.executed⟩
        | .ok (latents, _) =>
          let d := decode_latents env latents
          ⟨d.1, tr0 ++ [.load .denoiser] ++ out.trace ++ [.drop .denoiser] ++ d.2,
           out.calls, out.executed⟩
      else ⟨.error .usizeUnderflowPanic, tr0, [], []⟩

/-! ## Residency levels over a trace -/

/-- Residency change of one event. -/
def eventDelta : StageEvent → Int
  | .load _ => 1
  | .drop _ => -1

/-- The number of resident sessions after a trace, starting from `s`. -/
def endLevel (s : Int) (tr : Trace) : Int :=
  tr.foldl (fun a e => a + eventDelta e) s

/-- The maximal number of simultaneously resident sessions along a trace,
starting from `s` residents (the start point included). -/
def maxLevel (s : Int) : Trace → Int
  | [] => s
  | e :: tr => max s (maxLevel (s + eventDelta e) tr)

/-- Whether the configured callback is the `Decoded` variant, the only one
that runs `decode_latents` (and hence loads the VAE decoder) inside the
denoising loop. -/
def usesFullDecode : Option StableDiffusionCallback → Bool
  | some (.decoded _ _) => true
  | _ => false

/-! ## Concrete instances used by witnesses and counterexamples -/

/-- A concrete collaborator environment for evaluating runs. -/
def envW : Env where
  encodeText := fun ps => ps.map (fun _ => [[0]])
  lpwEmbed := fun ps _ => (ps.map (fun _ => [[0]]), none)
  unet := fun x _ _ => x
  vae := fun _ => [[[0]], [[0]], [[0]]]
  randn := fun rng p =>
    (List.replicate p.1 (List.replicate p.2.1
      (List.replicate p.2.2.1 (List.replicate p.2.2.2 0))), rng)
  threadSeed := 0
  lpw := false

/-- A concrete order-1 scheduler with `n` timesteps after `set_timesteps n`. -/
def schedW : Scheduler where
  timesteps := fun n => List.replicate n 0
  initNoiseSigma := 1
  order := 1
  scaleModelInput := fun x _ => x
  step := fun _ _ lat rng => (lat, rng)

/-- The same scheduler with order 2 (for the warm-up underflow scenario). -/
def schedU : Scheduler := { schedW with order := 2 }

/-- Options with a height not divisible by 8. -/
def optsBad : StableDiffusionTxt2ImgOptions :=
  ⟨100, 512, 7.5, 2, some 0, none, none⟩

/-- Options with valid dimensions, guidance disabled and a `Decoded`
callback firing every step. -/
def optsDec : StableDiffusionTxt2ImgOptions :=
  ⟨8, 8, 1, 2, some 0, none, some (.decoded 1 (fun _ _ _ => true))⟩

/-- Options with no callback at all. -/
def optsPlain : StableDiffusionTxt2ImgOptions :=
  ⟨8, 8, 1, 1, some 0, none, none⟩

/-- Options whose progress callback cancels at the very first gated step. -/
def optsCancel : StableDiffusionTxt2ImgOptions :=
  ⟨8, 8, 1, 1, some 0, none, some (.progress 1 (fun _ _ => false))⟩

/-- Options that underflow the warm-up computation on an order-2 scheduler
(`timesteps.len() = 3 < 6 = steps * order`). -/
def optsUnder : StableDiffusionTxt2ImgOptions :=
  ⟨8, 8, 1, 3, some 0, none, none⟩

/-- A one-sample latent tensor of extreme magnitude (spec: "including
extreme values (±1000)"). -/
def latExtreme : T4 := [[[[1000]], [[-1000]], [[1000]], [[-1000]]]]

/-- A noise-prediction tensor for a guidance batch of `B = 2` prompts:
rows 0-1 are the unconditional predictions, rows 2-3 the conditional ones. -/
def npB2 : T4 := [[[[0]]], [[[10]]], [[[1]]], [[[11]]]]

/-- The single denoiser invocation recorded by the `optsPlain` run. -/
def callPlain : DenoiserCall :=
  ⟨(initialLatents envW schedW 1 optsPlain
      (optsPlain.seed.getD envW.threadSeed)).1, 0, envW.encodeText ["p"]⟩

/-! ## Helper lemmas -/

theorem clamp01_bounds (x : Scalar) : 0 ≤ clamp01 x ∧ clamp01 x ≤ 1 :=
  ⟨le_min (le_max_right x 0) zero_le_one, min_le_right _ _⟩

theorem to_image_ok_bounds {w h : Nat} {arr : T4} {img : Image}
    (hok : to_image w h arr = .ok img) : ∀ p ∈ img, 0 ≤ p ∧ p ≤ 1 := by
  intro p hp
  unfold to_image at hok
  split at hok
  · cases hok
    obtain ⟨q, _, hq⟩ := List.mem_map.mp hp
    exact hq ▸ clamp01_bounds q
  · cases hok

theorem collectImages_ok_mem {f : T3 → Except PipeError Image} :
    ∀ {l : List T3} {imgs : List Image}, collectImages f l = .ok imgs →
      ∀ img ∈ imgs, ∃ c ∈ l, f c = .ok img := by
  intro l
  induction l with
  | nil =>
    intro imgs h img himg
    unfold collectImages at h
    cases h
    cases himg
  | cons c cs ih =>
    intro imgs h img himg
    unfold collectImages at h
    cases hfc : f c with
    | error e => rw [hfc] at h; cases h
    | ok i0 =>
      rw [hfc] at h
      cases hrest : collectImages f cs with
      | error e => rw [hrest] at h; cases h
      | ok rest =>
        rw [hrest] at h
        cases h
        rcases List.mem_cons.mp himg with h | h
        · exact ⟨c, List.mem_cons_self c cs, h ▸ hfc⟩
        · obtain ⟨c', hc', hfc'⟩ := ih hrest img h
          exact ⟨c', List.mem_cons_of_mem c hc', hfc'⟩

/-! ## C10: both decoders clamp every pixel into [0, 1] -/

/-- Claim C10: for every input latent tensor, of arbitrary magnitude, both
`approximate_decode_latents` (fixed 4×3 projection, 1.2× brightness, clamp)
and `decode_latents` ([-1,1] → [0,1] mapping, clamp) produce images whose
every pixel value lies within [0, 1]. -/
theorem decode_pixels_in_unit_interval (env : Env) (latents : T4) :
    (∀ imgs, approximate_decode_latents latents = .ok imgs →
      ∀ img ∈ imgs, ∀ p ∈ img, 0 ≤ p ∧ p ≤ 1) ∧
    (∀ imgs, (decode_latents env latents).1 = .ok imgs →
      ∀ img ∈ imgs, ∀ p ∈ img, 0 ≤ p ∧ p ≤ 1) := by
  constructor
  · intro imgs h img himg p hp
    unfold approximate_decode_latents at h
    obtain ⟨c, _, hc⟩ := collectImages_ok_mem h img himg
    exact to_image_ok_bounds hc p hp
  · intro imgs h img himg p hp
    unfold decode_latents at h
    obtain ⟨c, _, hc⟩ := collectImages_ok_mem h img himg
    exact to_image_ok_bounds hc p hp

theorem decode_pixels_in_unit_interval_witness :
    approximate_decode_latents latExtreme = .ok [[1, 1, 1]] ∧
    (0 ≤ (1 : Scalar) ∧ (1 : Scalar) ≤ 1) := by
  have h : approximate_decode_latents latExtreme = .ok [[1, 1, 1]] := by
    norm_num [approximate_decode_latents, latExtreme, approxCoefs,
      einsum_blxy_lr, collectImages, to_image, mapT3, flattenT4, clamp01,
      List.range_succ]
  exact ⟨h,
    (decode_pixels_in_unit_interval envW latExtreme).1 [[1, 1, 1]] h
      [1, 1, 1] (by simp) 1 (by simp)⟩

/-! ## C2: the guidance recombination (code bug for batches of size > 1) -/

/-- Claim C2 (code bug): for a prompt batch of size `B = 2` under guidance,
the source splits the noise prediction with two `axis_iter` advances, pairing
batch rows 0 and 1 — which are both *unconditional* rows — and collapsing the
result to batch size 1, instead of recombining the first-`B` and last-`B`
halves row by row as the claim (and classifier-free guidance) requires.
Evaluated at `npB2` with `guidance_scale = 2`. -/
theorem guidance_split_code_bug :
    guidanceCombine 2 npB2 = some [[[[20]]]] ∧
    guidanceCombineSpec 2 2 npB2 = [[[[2]]], [[[12]]]] ∧
    guidanceCombine 2 npB2 ≠ some (guidanceCombineSpec 2 2 npB2) ∧
    (guidanceCombineSpec 2 2 npB2).length = 2 := by
  have h1 : guidanceCombine 2 npB2 = some [[[[20]]]] := by
    norm_num [guidanceCombine, npB2, map2T4, map2T3, map2T2, map2T1,
      smulT4, smulT3, mapT4, mapT3]
  have h2 : guidanceCombineSpec 2 2 npB2 = [[[[2]]], [[[12]]]] := by
    norm_num [guidanceCombineSpec, npB2, map2T3, map2T2, map2T1,
      smulT3, mapT3]
  refine ⟨h1, h2, ?_, by rw [h2]; rfl⟩
  rw [h1, h2]
  intro hc
  have := Option.some.inj hc
  norm_num at this

/-! ## C3: dimension validation happens before any stage is loaded -/

/-- Claim C3: whenever the requested height or width is not divisible by 8,
`txt2img` fails with the dimension validation error, and its session trace is
empty — no text encoder, denoiser or decoder session was created. -/
theorem txt2img_invalid_dims (env : Env) (sched : Scheduler)
    (prompt : List String) (opts : StableDiffusionTxt2ImgOptions)
    (h : ¬(opts.height % 8 = 0 ∧ opts.width % 8 = 0)) :
    (txt2img env sched prompt opts).res =
      .error (.invalidDimensions opts.width opts.height) ∧
    (txt2img env sched prompt opts).trace = [] := by
  have hc : (!(opts.height % 8 == 0) || !(opts.width % 8 == 0)) = true := by
    rcases Decidable.not_and_iff_or_not.mp h with h8 | h8 <;> simp [h8]
  unfold txt2img
  rw [if_pos hc]
  exact ⟨rfl, rfl⟩

theorem txt2img_invalid_dims_witness :
    (txt2img envW schedW ["p"] optsBad).res =
      .error (.invalidDimensions 512 100) ∧
    (txt2img envW schedW ["p"] optsBad).trace = [] :=
  txt2img_invalid_dims envW schedW ["p"] optsBad (by decide)

/-! ## C4: negative-prompt broadcasting and the mismatch panic -/

/-- Claim C4 (counterexample): with a prompt batch of size 1 and a 2-element
negative prompt, `encode_prompt` dies on the `assert_eq!` panic — it does not
surface a validation error through the `Result` to the caller. -/
theorem negative_mismatch_counterexample :
    encode_prompt envW ["a"] true (some ["x", "y"]) =
      (.error .assertEqPanic, []) := by decide

/-- Claim C4 (amended): a single negative prompt paired with a prompt batch
of size `B > 1` is replicated to `B` copies (encoding with it is identical to
encoding with the `B`-fold replica); every other batch-size mismatch makes
`encode_prompt` panic via `assert_eq!` (it is not returned as a validation
error). -/
theorem negative_prompt_handling (env : Env) (prompt np : List String)
    (cfg : Bool) :
    (prompt.length > 1 → np.length = 1 →
      encode_prompt env prompt cfg (some np) =
        encode_prompt env prompt cfg
          (some (List.replicate prompt.length (np.headD "")))) ∧
    (¬(prompt.length > 1 ∧ np.length = 1) → np.length ≠ prompt.length →
      encode_prompt env prompt cfg (some np) =
        (.error .assertEqPanic, [])) := by
  constructor
  · intro hB hnp
    have h1 : resolveNegativePrompt prompt.length (some np) =
        .ok (some (List.replicate prompt.length (np.headD ""))) := by
      simp [resolveNegativePrompt, hB, hnp]
    have hne : (prompt.length == 1) = false := by
      simp only [beq_eq_false_iff_ne, ne_eq]
      omega
    have h2 : resolveNegativePrompt prompt.length
        (some (List.replicate prompt.length (np.headD ""))) =
        .ok (some (List.replicate prompt.length (np.headD ""))) := by
      simp [resolveNegativePrompt, hne]
    simp only [encode_prompt, h1, h2]
  · intro hmix hne
    have h1 : resolveNegativePrompt prompt.length (some np) =
        .error .assertEqPanic := by
      simp only [resolveNegativePrompt]
      rw [if_neg, if_neg]
      · simp only [beq_iff_eq]
        omega
      · simp only [Bool.and_eq_true, decide_eq_true_eq, beq_iff_eq]
        intro hc
        exact hmix hc
    simp only [encode_prompt, h1]

theorem negative_prompt_handling_witness :
    encode_prompt envW ["a", "b"] true (some ["n"]) =
      encode_prompt envW ["a", "b"] true (some ["n", "n"]) :=
  (negative_prompt_handling envW ["a", "b"] ["n"] true).1 (by decide) rfl

/-! ## C5: embedding layout under classifier-free guidance -/

theorem resolveNegativePrompt_ok_some_length {B : Nat}
    {neg : Option (List String)} {l : List String}
    (h : resolveNegativePrompt B neg = .ok (some l)) : l.length = B := by
  cases neg with
  | none => simp [resolveNegativePrompt] at h
  | some np =>
    simp only [resolveNegativePrompt] at h
    split at h
    · cases h
      simp
    · split at h
      · cases h
        rename_i hcond
        simp only [beq_iff_eq] at hcond
        omega
      · cases h

/-- Claim C5: under guidance, `encode_prompt` (plain mode) returns an
embedding tensor with batch dimension `2B`, the `B` unconditional rows
placed before the `B` conditional rows; with no negative prompt the
unconditional rows are the encodings of a batch of `B` empty strings.
`henc` states that the text-encoder session preserves the batch dimension. -/
theorem encode_prompt_cfg_layout (env : Env)
    (henc : ∀ ps, (env.encodeText ps).length = ps.length)
    (hlpw : env.lpw = false) (prompt : List String)
    (negative : Option (List String)) (r : Option (List String))
    (hr : resolveNegativePrompt prompt.length negative = .ok r) :
    ∃ emb, (encode_prompt env prompt true negative).1 = .ok emb ∧
      emb.length = 2 * prompt.length ∧
      emb.take prompt.length =
        env.encodeText (r.getD (default_batched prompt.length)) ∧
      emb.drop prompt.length = env.encodeText prompt ∧
      (negative = none →
        emb.take prompt.length =
          env.encodeText (List.replicate prompt.length "")) := by
  have hulen :
      (env.encodeText (r.getD (default_batched prompt.length))).length =
        prompt.length := by
    cases r with
    | none => rw [henc]; simp [default_batched]
    | some l => rw [henc, Option.getD_some,
        resolveNegativePrompt_ok_some_length hr]
  refine ⟨env.encodeText (r.getD (default_batched prompt.length)) ++
    env.encodeText prompt, ?_, ?_, ?_, ?_, ?_⟩
  · simp [encode_prompt, hr, hlpw]
  · rw [List.length_append, hulen, henc]
    omega
  · exact List.take_left' hulen
  · exact List.drop_left' hulen
  · intro hnone
    subst hnone
    have hrn : r = none := by
      simp only [resolveNegativePrompt] at hr
      exact (Except.ok.inj hr).symm
    subst hrn
    simpa [default_batched] using List.take_left' hulen

theorem encode_prompt_cfg_layout_witness :
    ∃ emb, (encode_prompt envW ["a", "b"] true none).1 = .ok emb ∧
      emb.length = 2 * (["a", "b"] : List String).length ∧
      emb.take (["a", "b"] : List String).length =
        envW.encodeText
          ((none : Option (List String)).getD
            (default_batched (["a", "b"] : List String).length)) ∧
      emb.drop (["a", "b"] : List String).length = envW.encodeText ["a", "b"] ∧
      ((none : Option (List String)) = none →
        emb.take (["a", "b"] : List String).length =
          envW.encodeText
            (List.replicate (["a", "b"] : List String).length "")) :=
  encode_prompt_cfg_layout envW (fun ps => by simp [envW]) rfl ["a", "b"]
    none none rfl

/-! ## C9: the warm-up subtraction cannot underflow once the loop runs -/

theorem encode_prompt_trace_cases (env : Env) (prompt : List String)
    (cfg : Bool) (neg : Option (List String)) :
    (encode_prompt env prompt cfg neg).2 = [] ∨
    (encode_prompt env prompt cfg neg).2 =
      [.load .textEncoder, .drop .textEncoder] := by
  cases h : resolveNegativePrompt prompt.length neg with
  | error e => left; simp [encode_prompt, h]
  | ok r => right; simp [encode_prompt, h]

theorem encode_prompt_no_denoiser (env : Env) (prompt : List String)
    (cfg : Bool) (neg : Option (List String)) :
    StageEvent.load .denoiser ∉ (encode_prompt env prompt cfg neg).2 := by
  rcases encode_prompt_trace_cases env prompt cfg neg with h | h <;>
    rw [h] <;> decide

/-- Claim C9: the warm-up threshold is the unsigned (`usize`) subtraction
`timesteps.len() - steps * order`, so it never represents a negative value;
the denoising loop (i.e. the `load .denoiser` event) is reached only when
`steps * order ≤ timesteps.len()`, and when that precondition fails the call
panics on the underflow (there is no "treat a negative threshold as
always-satisfied" path). -/
theorem warmup_threshold_guard (env : Env) (sched : Scheduler)
    (prompt : List String) (opts : StableDiffusionTxt2ImgOptions) :
    (StageEvent.load .denoiser ∈ (txt2img env sched prompt opts).trace →
      opts.steps * sched.order ≤ (sched.timesteps opts.steps).length) ∧
    (∀ text_embeddings tr0,
      opts.height % 8 = 0 → opts.width % 8 = 0 →
      encode_prompt env prompt (opts.guidanceScale > 1) opts.negativePrompt =
        (.ok text_embeddings, tr0) →
      (sched.timesteps opts.steps).length < opts.steps * sched.order →
      (txt2img env sched prompt opts).res = .error .usizeUnderflowPanic) := by
  constructor
  · intro hmem
    simp only [txt2img] at hmem
    by_cases hdim : (!(opts.height % 8 == 0) || !(opts.width % 8 == 0)) = true
    · rw [if_pos hdim] at hmem
      exact absurd hmem (by simp)
    · rw [if_neg hdim] at hmem
      rcases henc : encode_prompt env prompt (opts.guidanceScale > 1)
        opts.negativePrompt with ⟨res, tr⟩
      have hnd := encode_prompt_no_denoiser env prompt
        (opts.guidanceScale > 1) opts.negativePrompt
      rw [henc] at hnd
      cases res with
      | error e =>
        simp only [henc] at hmem
        exact absurd hmem (by simpa using hnd)
      | ok emb =>
        simp only [henc] at hmem
        by_cases hle :
            opts.steps * sched.order ≤ (sched.timesteps opts.steps).length
        · exact hle
        · rw [if_neg hle] at hmem
          exact absurd hmem (by simpa using hnd)
  · intro emb tr0 h8 hw henc hlt
    have hdim : (!(opts.height % 8 == 0) || !(opts.width % 8 == 0)) = false := by
      simp [h8, hw]
    simp only [txt2img]
    rw [if_neg (by simp [hdim])]
    simp only [henc]
    rw [if_neg (not_le.mpr hlt)]

theorem warmup_threshold_guard_witness :
    (txt2img envW schedU ["p"] optsUnder).res = .error .usizeUnderflowPanic :=
  (warmup_threshold_guard envW schedU ["p"] optsUnder).2 [[[0]]]
    [.load .textEncoder, .drop .textEncoder] rfl rfl (by decide) (by decide)

/-! ## C8: the callback gate -/

/-- Claim C8: whenever the loop's callback condition `cbFires` holds at
iteration `i` (with the warm-up threshold `total - steps * order`), the step
is at or after the warm-up threshold, it is the final timestep or satisfies
`(i + 1) % order = 0`, the variant's frequency divides `i`, and the
`Decoded`/`ApproximateDecoded` variants additionally have `i ≠ 0`. -/
theorem callback_gate_spec (cb : StableDiffusionCallback)
    (total steps order i : Nat) (hpos : 1 ≤ steps * order) (_hi : i < total)
    (hfire : cbFires cb total (total - steps * order) order i = true) :
    total - steps * order ≤ i ∧
    (i = total - 1 ∨ (i + 1) % order = 0) ∧
    i % cb.frequency = 0 ∧
    (cb.isDecodedVariant = true → i ≠ 0) := by
  unfold cbFires at hfire
  rw [Bool.and_eq_true] at hfire
  obtain ⟨hgate, hvar⟩ := hfire
  simp only [Bool.or_eq_true, Bool.and_eq_true, beq_iff_eq,
    decide_eq_true_eq] at hgate
  have hgate' : i = total - 1 ∨
      (total - steps * order < i + 1 ∧ (i + 1) % order = 0) := by
    rcases hgate with h | h
    · exact Or.inl h
    · exact Or.inr ⟨h.1, h.2⟩
  refine ⟨?_, ?_, ?_⟩
  · rcases hgate' with h | h
    · omega
    · omega
  · rcases hgate' with h | h
    · exact Or.inl h
    · exact Or.inr h.2
  · cases cb with
    | progress f c =>
      simp only [StableDiffusionCallback.frequency,
        StableDiffusionCallback.isDecodedVariant, beq_iff_eq] at hvar ⊢
      exact ⟨hvar, by simp⟩
    | latents f c =>
      simp only [StableDiffusionCallback.frequency,
        StableDiffusionCallback.isDecodedVariant, beq_iff_eq] at hvar ⊢
      exact ⟨hvar, by simp⟩
    | decoded f c =>
      simp only [StableDiffusionCallback.frequency,
        StableDiffusionCallback.isDecodedVariant, Bool.and_eq_true,
        Bool.not_eq_true', beq_eq_false_iff_ne, beq_iff_eq] at hvar ⊢
      exact ⟨hvar.2, fun _ => hvar.1⟩
    | approximateDecoded f c =>
      simp only [StableDiffusionCallback.frequency,
        StableDiffusionCallback.isDecodedVariant, Bool.and_eq_true,
        Bool.not_eq_true', beq_eq_false_iff_ne, beq_iff_eq] at hvar ⊢
      exact ⟨hvar.2, fun _ => hvar.1⟩

/-! ## C1: stage residency -/

theorem le_maxLevel (s : Int) (tr : Trace) : s ≤ maxLevel s tr := by
  induction tr generalizing s with
  | nil => exact le_refl s
  | cons e tr ih => exact le_max_left s _

theorem endLevel_cons (s : Int) (e : StageEvent) (tr : Trace) :
    endLevel s (e :: tr) = endLevel (s + eventDelta e) tr := rfl

theorem endLevel_append (s : Int) (a b : Trace) :
    endLevel s (a ++ b) = endLevel (endLevel s a) b := by
  simp [endLevel, List.foldl_append]

theorem maxLevel_append (s : Int) (a b : Trace) :
    maxLevel s (a ++ b) = max (maxLevel s a) (maxLevel (endLevel s a) b) := by
  induction a generalizing s with
  | nil =>
    simp only [List.nil_append, maxLevel, endLevel, List.foldl_nil]
    exact (max_eq_right (le_maxLevel s b)).symm
  | cons e a ih =>
    simp only [List.cons_append, List.append_eq, maxLevel, ih, endLevel_cons]
    rw [max_assoc]

theorem runCallback_trace_cases (env : Env) (cb : StableDiffusionCallback)
    (i : Nat) (t : Scalar) (lat : T4) :
    (runCallback env cb i t lat).2 = [] ∨
    (runCallback env cb i t lat).2 =
      [.load .latentDecoder, .drop .latentDecoder] := by
  cases cb with
  | progress f c => exact Or.inl rfl
  | latents f c => exact Or.inl rfl
  | decoded f c => exact Or.inr rfl
  | approximateDecoded f c => exact Or.inl rfl

theorem runCallback_trace_balanced (env : Env) (cb : StableDiffusionCallback)
    (i : Nat) (t : Scalar) (lat : T4) (s : Int) :
    endLevel s (runCallback env cb i t lat).2 = s ∧
    maxLevel s (runCallback env cb i t lat).2 ≤ s + 1 := by
  rcases runCallback_trace_cases env cb i t lat with h | h <;> rw [h]
  · exact ⟨rfl, by simp [maxLevel]⟩
  · refine ⟨by simp [endLevel, eventDelta], ?_⟩
    simp only [maxLevel, eventDelta, max_le_iff]
    omega

theorem denoiseLoop_trace_balanced (env : Env) (sched : Scheduler)
    (doCfg : Bool) (gs : Scalar) (embeds : T3)
    (cb : Option StableDiffusionCallback) (nw total : Nat) :
    ∀ (ts : List Scalar) (i : Nat) (lat : T4) (rng : Rng) (s : Int),
      endLevel s (denoiseLoop env sched doCfg gs embeds cb nw total
        ts i lat rng).trace = s ∧
      maxLevel s (denoiseLoop env sched doCfg gs embeds cb nw total
        ts i lat rng).trace ≤ s + 1 := by
  intro ts
  induction ts with
  | nil => intro i lat rng s; exact ⟨rfl, by simp [maxLevel]⟩
  | cons t ts ih =>
    intro i lat rng s
    rcases hit : loopIter env sched doCfg gs embeds t lat rng with ⟨res, call⟩
    cases res with
    | error e =>
      simp only [denoiseLoop, hit]
      exact ⟨rfl, by simp [maxLevel]⟩
    | ok p =>
      obtain ⟨lat', rng'⟩ := p
      cases cb with
      | none =>
        simp only [denoiseLoop, hit]
        exact ih (i + 1) lat' rng' s
      | some cb =>
        simp only [denoiseLoop, hit]
        by_cases hf : cbFires cb total nw sched.order i = true
        · rw [if_pos hf]
          rcases hrc : runCallback env cb i t lat' with ⟨rres, trc⟩
          have hbal := runCallback_trace_balanced env cb i t lat' s
          rw [hrc] at hbal
          cases rres with
          | error e =>
            simp only [hrc]
            exact hbal
          | ok keepGoing =>
            cases keepGoing with
            | false =>
              simp only [hrc]
              rw [if_neg (by simp)]
              exact hbal
            | true =>
              simp only [hrc]
              rw [if_pos trivial]
              obtain ⟨ihe, ihm⟩ := ih (i + 1) lat' rng' s
              have hbe : endLevel s trc = s := hbal.1
              have hbm : maxLevel s trc ≤ s + 1 := hbal.2
              refine ⟨?_, ?_⟩
              · show endLevel s (trc ++ _) = s
                rw [endLevel_append, hbe, ihe]
              · show maxLevel s (trc ++ _) ≤ s + 1
                rw [maxLevel_append, hbe]
                exact max_le hbm ihm
        · rw [if_neg hf]
          exact ih (i + 1) lat' rng' s

theorem denoiseLoop_trace_empty (env : Env) (sched : Scheduler)
    (doCfg : Bool) (gs : Scalar) (embeds : T3)
    (cb : Option StableDiffusionCallback) (nw total : Nat)
    (hcb : usesFullDecode cb = false) :
    ∀ (ts : List Scalar) (i : Nat) (lat : T4) (rng : Rng),
      (denoiseLoop env sched doCfg gs embeds cb nw total
        ts i lat rng).trace = [] := by
  intro ts
  induction ts with
  | nil => intro i lat rng; rfl
  | cons t ts ih =>
    intro i lat rng
    rcases hit : loopIter env sched doCfg gs embeds t lat rng with ⟨res, call⟩
    cases res with
    | error e => simp only [denoiseLoop, hit]
    | ok p =>
      obtain ⟨lat', rng'⟩ := p
      cases cb with
      | none =>
        simp only [denoiseLoop, hit]
        exact ih (i + 1) lat' rng'
      | some cb =>
        have htrc : ∀ j u l, (runCallback env cb j u l).2 = [] := by
          intro j u l
          cases cb with
          | progress f c => rfl
          | latents f c => rfl
          | decoded f c => exact absurd hcb (by simp [usesFullDecode])
          | approximateDecoded f c => rfl
        simp only [denoiseLoop, hit]
        by_cases hf : cbFires cb total nw sched.order i = true
        · rw [if_pos hf]
          rcases hrc : runCallback env cb i t lat' with ⟨rres, trc⟩
          have h0 : trc = [] := by
            have h1 := htrc i t lat'
            rw [hrc] at h1
            exact h1
          cases rres with
          | error e =>
            simp only [hrc]
            exact h0
          | ok keepGoing =>
            cases keepGoing with
            | false =>
              simp only [hrc]
              rw [if_neg (by simp)]
              exact h0
            | true =>
              simp only [hrc]
              rw [if_pos trivial]
              show trc ++ _ = []
              rw [h0, ih (i + 1) lat' rng']
              rfl
        · rw [if_neg hf]
          exact ih (i + 1) lat' rng'

theorem encode_prompt_trace_balanced (env : Env) (prompt : List String)
    (cfg : Bool) (neg : Option (List String)) (s : Int) :
    endLevel s (encode_prompt env prompt cfg neg).2 = s ∧
    maxLevel s (encode_prompt env prompt cfg neg).2 ≤ s + 1 := by
  rcases encode_prompt_trace_cases env prompt cfg neg with h | h <;> rw [h]
  · exact ⟨rfl, by simp [maxLevel]⟩
  · refine ⟨by simp [endLevel, eventDelta], ?_⟩
    simp only [maxLevel, eventDelta, max_le_iff]
    omega

/-- Claim C1 (corrected, counterexample): a concrete call with a `Decoded`
callback that fires inside the denoising loop reaches a residency level of
two — the VAE decoder session is created by `decode_latents` while the UNet
session is still alive — so "at most one model stage is resident at any
point" is false as stated. -/
theorem stage_residency_counterexample :
    maxLevel 0 (txt2img envW schedW ["p"] optsDec).trace = 2 := by
  have h1 : (decide ((1 : ℚ) < 1)) = false := by simp
  norm_num [txt2img, optsDec, envW, schedW, encode_prompt,
    resolveNegativePrompt, initialLatents, denoiseLoop, loopIter,
    runCallback, decode_latents, collectImages, to_image, cbFires,
    guidanceCombine, smulT4, mapT4, mapT3, flattenT4, permute_hwc, clamp01,
    maxLevel, endLevel, eventDelta, h1]

/-- Claim C1 (amended): at most one model stage is resident at any point of
a generation call, except while a `Decoded` callback runs `decode_latents`
inside the denoising loop, where the denoiser and the latent decoder
coexist; the residency level therefore never exceeds two, and never exceeds
one when the configured callback is not the `Decoded` variant. -/
theorem stage_residency_bound (env : Env) (sched : Scheduler)
    (prompt : List String) (opts : StableDiffusionTxt2ImgOptions) :
    maxLevel 0 (txt2img env sched prompt opts).trace ≤ 2 ∧
    (usesFullDecode opts.callback = false →
      maxLevel 0 (txt2img env sched prompt opts).trace ≤ 1) := by
  have e1 : endLevel 0 [StageEvent.load ModelStage.denoiser] = 1 := by decide
  have e2 : endLevel 1 [StageEvent.drop ModelStage.denoiser] = 0 := by decide
  have m1 : maxLevel 0 [StageEvent.load ModelStage.denoiser] = 1 := by decide
  have m2 : maxLevel 1 [StageEvent.drop ModelStage.denoiser] = 1 := by decide
  have enil : ∀ s : Int, endLevel s ([] : Trace) = s := fun s => rfl
  have mnil : ∀ s : Int, maxLevel s ([] : Trace) = s := fun s => rfl
  simp only [txt2img]
  by_cases hdim : (!(opts.height % 8 == 0) || !(opts.width % 8 == 0)) = true
  · rw [if_pos hdim]
    constructor
    · show maxLevel 0 ([] : Trace) ≤ 2
      decide
    · intro _
      show maxLevel 0 ([] : Trace) ≤ 1
      decide
  · rw [if_neg hdim]
    rcases henc : encode_prompt env prompt (opts.guidanceScale > 1)
      opts.negativePrompt with ⟨res, tr0⟩
    have h0 := encode_prompt_trace_balanced env prompt
      (opts.guidanceScale > 1) opts.negativePrompt 0
    rw [henc] at h0
    have h0e : endLevel 0 tr0 = 0 := h0.1
    have h0m : maxLevel 0 tr0 ≤ 0 + 1 := h0.2
    cases res with
    | error e =>
      simp only [henc]
      constructor
      · show maxLevel 0 tr0 ≤ 2
        omega
      · intro _
        show maxLevel 0 tr0 ≤ 1
        omega
    | ok emb =>
      simp only [henc]
      by_cases hle :
          opts.steps * sched.order ≤ (sched.timesteps opts.steps).length
      · rw [if_pos hle]
        have hloop := denoiseLoop_trace_balanced env sched
          (decide (opts.guidanceScale > 1)) opts.guidanceScale emb
          opts.callback ((sched.timesteps opts.steps).length -
            opts.steps * sched.order) (sched.timesteps opts.steps).length
          (sched.timesteps opts.steps) 0
          (initialLatents env sched prompt.length opts
            (opts.seed.getD env.threadSeed)).1
          (initialLatents env sched prompt.length opts
            (opts.seed.getD env.threadSeed)).2 1
        set out := denoiseLoop env sched (decide (opts.guidanceScale > 1))
          opts.guidanceScale emb opts.callback
          ((sched.timesteps opts.steps).length - opts.steps * sched.order)
          (sched.timesteps opts.steps).length (sched.timesteps opts.steps) 0
          (initialLatents env sched prompt.length opts
            (opts.seed.getD env.threadSeed)).1
          (initialLatents env sched prompt.length opts
            (opts.seed.getD env.threadSeed)).2 with hout
        have hle1 : endLevel 1 out.trace = 1 := hloop.1
        have hlm : maxLevel 1 out.trace ≤ 1 + 1 := hloop.2
        have hempty : usesFullDecode opts.callback = false →
            out.trace = [] := by
          intro hcb
          rw [hout]
          exact denoiseLoop_trace_empty env sched
            (decide (opts.guidanceScale > 1)) opts.guidanceScale emb
            opts.callback ((sched.timesteps opts.steps).length -
              opts.steps * sched.order)
            (sched.timesteps opts.steps).length hcb
            (sched.timesteps opts.steps) 0
            (initialLatents env sched prompt.length opts
              (opts.seed.getD env.threadSeed)).1
            (initialLatents env sched prompt.length opts
              (opts.seed.getD env.threadSeed)).2
        cases hres : out.res with
        | error e =>
          simp only [hres]
          constructor
          · show maxLevel 0 (tr0 ++ [StageEvent.load ModelStage.denoiser] ++
              out.trace ++ [StageEvent.drop ModelStage.denoiser]) ≤ 2
            simp only [maxLevel_append, endLevel_append, h0e, e1, e2, m1, m2,
              hle1, max_le_iff]
            omega
          · intro hcb
            have hz := hempty hcb
            show maxLevel 0 (tr0 ++ [StageEvent.load ModelStage.denoiser] ++
              out.trace ++ [StageEvent.drop ModelStage.denoiser]) ≤ 1
            rw [hz]
            simp only [maxLevel_append, endLevel_append, h0e, e1, e2, m1, m2,
              enil, mnil, max_le_iff]
            omega
        | ok p =>
          obtain ⟨latf, rngf⟩ := p
          simp only [hres]
          have hdd : endLevel 0 (decode_latents env latf).2 = 0 := by
            rw [show (decode_latents env latf).2 =
              [StageEvent.load ModelStage.latentDecoder,
               StageEvent.drop ModelStage.latentDecoder] from rfl]
            decide
          have hdm : maxLevel 0 (decode_latents env latf).2 ≤ 1 := by
            rw [show (decode_latents env latf).2 =
              [StageEvent.load ModelStage.latentDecoder,
               StageEvent.drop ModelStage.latentDecoder] from rfl]
            decide
          constructor
          · show maxLevel 0 (tr0 ++ [StageEvent.load ModelStage.denoiser] ++
              out.trace ++ [StageEvent.drop ModelStage.denoiser] ++
              (decode_latents env latf).2) ≤ 2
            simp only [maxLevel_append, endLevel_append, h0e, e1, e2, m1, m2,
              hle1, max_le_iff]
            omega
          · intro hcb
            have hz := hempty hcb
            show maxLevel 0 (tr0 ++ [StageEvent.load ModelStage.denoiser] ++
              out.trace ++ [StageEvent.drop ModelStage.denoiser] ++
              (decode_latents env latf).2) ≤ 1
            rw [hz]
            simp only [maxLevel_append, endLevel_append, h0e, e1, e2, m1, m2,
              enil, mnil, max_le_iff]
            omega
      · rw [if_neg hle]
        constructor
        · show maxLevel 0 tr0 ≤ 2
          omega
        · intro _
          show maxLevel 0 tr0 ≤ 1
          omega

theorem stage_residency_bound_witness :
    maxLevel 0 (txt2img envW schedW ["p"] optsPlain).trace ≤ 1 :=
  (stage_residency_bound envW schedW ["p"] optsPlain).2 rfl

theorem callback_gate_spec_witness :
    cbFires (.progress 2 (fun _ _ => true)) 10 (10 - 10 * 1) 1 8 = true ∧
    (10 - 10 * 1 ≤ 8 ∧ (8 = 10 - 1 ∨ (8 + 1) % 1 = 0) ∧
      8 % (StableDiffusionCallback.progress 2 (fun _ _ => true)).frequency = 0 ∧
      ((StableDiffusionCallback.progress 2
        (fun _ _ => true)).isDecodedVariant = true → 8 ≠ 0)) :=
  ⟨by decide,
   callback_gate_spec (.progress 2 (fun _ _ => true)) 10 10 1 8 (by decide)
     (by decide) (by decide)⟩

/-! ## C6: guidance disabled when the scale is at most 1 -/

theorem loopIter_no_cfg (env : Env) (sched : Scheduler) (gs : Scalar)
    (embeds : T3) (t : Scalar) (lat : T4) (rng : Rng) :
    loopIter env sched false gs embeds t lat rng =
      (.ok (sched.step
        (env.unet (sched.scaleModelInput lat t) t embeds) t lat rng),
       ⟨lat, t, embeds⟩) := rfl

theorem denoiseLoop_calls_no_cfg (env : Env) (sched : Scheduler)
    (gs : Scalar) (embeds : T3) (cb : Option StableDiffusionCallback)
    (nw total : Nat)
    (hstep : ∀ np t lat rng,
      ((sched.step np t lat rng).1).length = lat.length) :
    ∀ (ts : List Scalar) (i : Nat) (lat : T4) (rng : Rng),
      ∀ c ∈ (denoiseLoop env sched false gs embeds cb nw total
        ts i lat rng).calls,
        c.lmi.length = lat.length ∧ c.hidden = embeds := by
  intro ts
  induction ts with
  | nil =>
    intro i lat rng c hc
    exact absurd hc (List.not_mem_nil c)
  | cons t ts ih =>
    intro i lat rng c hc
    have hcons : c ∈ (⟨lat, t, embeds⟩ : DenoiserCall) ::
        (denoiseLoop env sched false gs embeds cb nw total ts (i + 1)
          (sched.step (env.unet (sched.scaleModelInput lat t) t embeds)
            t lat rng).1
          (sched.step (env.unet (sched.scaleModelInput lat t) t embeds)
            t lat rng).2).calls →
        c.lmi.length = lat.length ∧ c.hidden = embeds := by
      intro hmem
      rcases List.mem_cons.mp hmem with rfl | hmem
      · exact ⟨rfl, rfl⟩
      · obtain ⟨h1, h2⟩ := ih (i + 1) _ _ c hmem
        exact ⟨h1.trans (hstep _ _ _ _), h2⟩
    have hsingle : c ∈ [(⟨lat, t, embeds⟩ : DenoiserCall)] →
        c.lmi.length = lat.length ∧ c.hidden = embeds := by
      intro hmem
      rcases List.mem_cons.mp hmem with rfl | hmem
      · exact ⟨rfl, rfl⟩
      · exact absurd hmem (List.not_mem_nil c)
    cases cb with
    | none =>
      simp only [denoiseLoop, loopIter_no_cfg] at hc
      exact hcons hc
    | some cb =>
      simp only [denoiseLoop, loopIter_no_cfg] at hc
      by_cases hf : cbFires cb total nw sched.order i = true
      · rw [if_pos hf] at hc
        rcases hrc : runCallback env cb i t
          (sched.step (env.unet (sched.scaleModelInput lat t) t embeds)
            t lat rng).1 with ⟨rr, trc⟩
        cases rr with
        | error e =>
          simp only [hrc] at hc
          exact hsingle hc
        | ok keepGoing =>
          simp only [hrc] at hc
          by_cases hkg : keepGoing = true
          · rw [if_pos hkg] at hc
            exact hcons hc
          · rw [if_neg hkg] at hc
            exact hsingle hc
      · rw [if_neg hf] at hc
        exact hcons hc

theorem encode_prompt_plain_no_cfg (env : Env) (prompt : List String)
    (neg : Option (List String)) (emb : T3) (tr : Trace)
    (hlpw : env.lpw = false)
    (h : encode_prompt env prompt false neg = (.ok emb, tr)) :
    emb = env.encodeText prompt := by
  cases hr : resolveNegativePrompt prompt.length neg with
  | error e =>
    rw [show encode_prompt env prompt false neg = (.error e, []) by
      simp [encode_prompt, hr]] at h
    cases h
  | ok r =>
    rw [show encode_prompt env prompt false neg =
      (.ok (env.encodeText prompt),
       [.load .textEncoder, .drop .textEncoder]) by
      simp [encode_prompt, hr, hlpw]] at h
    exact (Except.ok.inj ((Prod.mk.injEq _ _ _ _).mp h).1).symm

/-- Claim C6: when `guidance_scale ≤ 1.0`, guidance is disabled for the
whole call: every recorded denoiser invocation receives a latent model input
whose batch dimension equals the prompt batch size (never duplicated) and
hidden states equal to the plain prompt encoding (no unconditional half
concatenated). -/
theorem no_guidance_when_scale_le_one (env : Env) (sched : Scheduler)
    (prompt : List String) (opts : StableDiffusionTxt2ImgOptions)
    (hscale : opts.guidanceScale ≤ 1) (hlpw : env.lpw = false)
    (hrandn : ∀ rng b c h w, ((env.randn rng (b, c, h, w)).1).length = b)
    (hstep : ∀ np t lat rng,
      ((sched.step np t lat rng).1).length = lat.length) :
    ∀ c ∈ (txt2img env sched prompt opts).calls,
      c.lmi.length = prompt.length ∧
      c.hidden = env.encodeText prompt := by
  have hcfg : (decide (opts.guidanceScale > 1)) = false :=
    decide_eq_false_iff_not.mpr (not_lt.mpr hscale)
  intro c hc
  simp only [txt2img] at hc
  by_cases hdim : (!(opts.height % 8 == 0) || !(opts.width % 8 == 0)) = true
  · rw [if_pos hdim] at hc
    exact absurd hc (List.not_mem_nil c)
  · rw [if_neg hdim] at hc
    rcases henc : encode_prompt env prompt (opts.guidanceScale > 1)
      opts.negativePrompt with ⟨res, tr0⟩
    cases res with
    | error e =>
      simp only [henc] at hc
      exact absurd hc (List.not_mem_nil c)
    | ok emb =>
      simp only [henc] at hc
      rw [hcfg] at henc
      have hemb : emb = env.encodeText prompt :=
        encode_prompt_plain_no_cfg env prompt opts.negativePrompt emb tr0
          hlpw henc
      by_cases hle :
          opts.steps * sched.order ≤ (sched.timesteps opts.steps).length
      · rw [if_pos hle] at hc
        rw [hcfg] at hc
        have hlat0 : (initialLatents env sched prompt.length opts
            (opts.seed.getD env.threadSeed)).1.length = prompt.length := by
          simp [initialLatents, smulT4, mapT4, hrandn]
        cases hres : (denoiseLoop env sched false opts.guidanceScale emb
            opts.callback ((sched.timesteps opts.steps).length -
              opts.steps * sched.order) (sched.timesteps opts.steps).length
            (sched.timesteps opts.steps) 0
            (initialLatents env sched prompt.length opts
              (opts.seed.getD env.threadSeed)).1
            (initialLatents env sched prompt.length opts
              (opts.seed.getD env.threadSeed)).2).res with
        | error e =>
          rw [hres] at hc
          obtain ⟨h1, h2⟩ := denoiseLoop_calls_no_cfg env sched
            opts.guidanceScale emb opts.callback _ _ hstep
            (sched.timesteps opts.steps) 0 _ _ c hc
          exact ⟨h1.trans hlat0, hemb ▸ h2⟩
        | ok p =>
          obtain ⟨latf, rngf⟩ := p
          rw [hres] at hc
          obtain ⟨h1, h2⟩ := denoiseLoop_calls_no_cfg env sched
            opts.guidanceScale emb opts.callback _ _ hstep
            (sched.timesteps opts.steps) 0 _ _ c hc
          exact ⟨h1.trans hlat0, hemb ▸ h2⟩
      · rw [if_neg hle] at hc
        exact absurd hc (List.not_mem_nil c)

theorem no_guidance_when_scale_le_one_witness :
    callPlain ∈ (txt2img envW schedW ["p"] optsPlain).calls ∧
    (callPlain.lmi.length = (["p"] : List String).length ∧
      callPlain.hidden = envW.encodeText ["p"]) := by
  have hmem : callPlain ∈ (txt2img envW schedW ["p"] optsPlain).calls := by
    show callPlain ∈ [callPlain]
    exact List.mem_singleton.mpr rfl
  exact ⟨hmem, no_guidance_when_scale_le_one envW schedW ["p"] optsPlain
    (le_refl 1) rfl (fun rng b c h w => by simp [envW])
    (fun np t lat rng => rfl) callPlain hmem⟩

/-! ## C7: cooperative cancellation -/

theorem statesAfter_take_one (env : Env) (sched : Scheduler) (doCfg : Bool)
    (gs : Scalar) (embeds : T3) (t : Scalar) (ts : List Scalar)
    (s s' : T4 × Rng)
    (h : statesAfter env sched doCfg gs embeds ((t :: ts).take 1) s =
      .ok s') :
    iterStep env sched doCfg gs embeds t s = .ok s' := by
  rw [List.take_succ_cons, List.take_zero] at h
  cases hit : iterStep env sched doCfg gs embeds t s with
  | error e =>
    simp only [statesAfter, hit] at h
    exact Except.noConfusion h
  | ok s1 =>
    simp only [statesAfter, hit] at h
    exact h

theorem statesAfter_take_shift (env : Env) (sched : Scheduler) (doCfg : Bool)
    (gs : Scalar) (embeds : T3) (t : Scalar) (ts : List Scalar)
    (s s1 : T4 × Rng) (m : Nat)
    (hit : iterStep env sched doCfg gs embeds t s = .ok s1) :
    statesAfter env sched doCfg gs embeds ((t :: ts).take (m + 2)) s =
      statesAfter env sched doCfg gs embeds (ts.take (m + 1)) s1 := by
  rw [List.take_succ_cons]
  simp only [statesAfter, hit]

theorem denoiseLoop_cancel (env : Env) (sched : Scheduler) (doCfg : Bool)
    (gs : Scalar) (embeds : T3) (cb : StableDiffusionCallback)
    (nw total : Nat) :
    ∀ (k : Nat) (ts : List Scalar) (i : Nat) (lat : T4) (rng : Rng)
      (s' : T4 × Rng),
      k < ts.length →
      statesAfter env sched doCfg gs embeds (ts.take (k + 1)) (lat, rng) =
        .ok s' →
      (∀ j, j < k →
        ∃ sj, statesAfter env sched doCfg gs embeds (ts.take (j + 1))
            (lat, rng) = .ok sj ∧
          (cbFires cb total nw sched.order (i + j) = false ∨
            (runCallback env cb (i + j) (ts.getD j 0) sj.1).1 = .ok true)) →
      cbFires cb total nw sched.order (i + k) = true →
      (runCallback env cb (i + k) (ts.getD k 0) s'.1).1 = .ok false →
      (denoiseLoop env sched doCfg gs embeds (some cb) nw total ts i lat
        rng).res = .ok s' ∧
      (denoiseLoop env sched doCfg gs embeds (some cb) nw total ts i lat
        rng).executed = (List.range (k + 1)).map (i + ·) := by
  intro k
  induction k with
  | zero =>
    intro ts i lat rng s' hk hs hcont hfire hcancel
    cases ts with
    | nil => simp at hk
    | cons t ts =>
      simp only [Nat.add_zero, List.getD_cons_zero] at hfire hcancel
      have hit := statesAfter_take_one env sched doCfg gs embeds t ts
        (lat, rng) s' hs
      obtain ⟨lat1, rng1⟩ := s'
      rcases hli : loopIter env sched doCfg gs embeds t lat rng with
        ⟨rres, call⟩
      have hrr : rres = .ok (lat1, rng1) := by
        unfold iterStep at hit
        rw [hli] at hit
        exact hit
      subst hrr
      simp only [denoiseLoop, hli]
      rw [if_pos hfire]
      rcases hrc : runCallback env cb i t lat1 with ⟨rr, trc⟩
      have hrr2 : rr = .ok false := by
        rw [hrc] at hcancel
        exact hcancel
      subst hrr2
      simp only [hrc]
      rw [if_neg (by simp)]
      exact ⟨rfl, by simp [List.range_succ]⟩
  | succ k ihk =>
    intro ts i lat rng s' hk hs hcont hfire hcancel
    cases ts with
    | nil => simp at hk
    | cons t ts =>
      obtain ⟨s1, hs1, hok1⟩ := hcont 0 (Nat.succ_pos k)
      simp only [Nat.add_zero, List.getD_cons_zero] at hok1
      have hit := statesAfter_take_one env sched doCfg gs embeds t ts
        (lat, rng) s1 hs1
      obtain ⟨lat1, rng1⟩ := s1
      rcases hli : loopIter env sched doCfg gs embeds t lat rng with
        ⟨rres, call⟩
      have hrr : rres = .ok (lat1, rng1) := by
        unfold iterStep at hit
        rw [hli] at hit
        exact hit
      subst hrr
      have hrest := ihk ts (i + 1) lat1 rng1 s'
        (by simpa using hk)
        (by
          have h1 := statesAfter_take_shift env sched doCfg gs embeds t ts
            (lat, rng) (lat1, rng1) k hit
          rw [← h1]
          exact hs)
        (by
          intro j hj
          obtain ⟨sj, hsj, hj2⟩ := hcont (j + 1) (Nat.succ_lt_succ hj)
          refine ⟨sj, ?_, ?_⟩
          · have h1 := statesAfter_take_shift env sched doCfg gs embeds t ts
              (lat, rng) (lat1, rng1) j hit
            rw [← h1]
            exact hsj
          · have harith : i + (j + 1) = (i + 1) + j := by omega
            rw [harith, List.getD_cons_succ] at hj2
            exact hj2)
        (by
          have harith : i + (k + 1) = (i + 1) + k := by omega
          rw [harith] at hfire
          exact hfire)
        (by
          have harith : i + (k + 1) = (i + 1) + k := by omega
          rw [harith, List.getD_cons_succ] at hcancel
          exact hcancel)
      have hexec : i :: (List.range (k + 1)).map ((i + 1) + ·) =
          (List.range (k + 1 + 1)).map (i + ·) := by
        rw [show List.range (k + 1 + 1) = 0 :: (List.range (k + 1)).map
          Nat.succ from List.range_succ_eq_map (k + 1)]
        rw [List.map_cons, List.map_map]
        refine List.cons_eq_cons.mpr ⟨by omega, ?_⟩
        apply List.map_congr_left
        intro x _
        simp only [Function.comp]
        omega
      simp only [denoiseLoop, hli]
      by_cases hf : cbFires cb total nw sched.order i = true
      · rw [if_pos hf]
        rcases hok1 with h | h
        · rw [hf] at h
          cases h
        · rcases hrc : runCallback env cb i t lat1 with ⟨rr, trc⟩
          have hrr2 : rr = .ok true := by
            rw [hrc] at h
            exact h
          subst hrr2
          simp only [hrc]
          rw [if_pos trivial]
          refine ⟨hrest.1, ?_⟩
          show i :: (denoiseLoop env sched doCfg gs embeds (some cb) nw total
            ts (i + 1) lat1 rng1).executed = _
          rw [hrest.2]
          exact hexec
      · rw [if_neg hf]
        refine ⟨hrest.1, ?_⟩
        show i :: (denoiseLoop env sched doCfg gs embeds (some cb) nw total
          ts (i + 1) lat1 rng1).executed = _
        rw [hrest.2]
        exact hexec

/-- Claim C7: if the active callback returns `false` at denoising step `k`
(and every earlier gated step kept going), no step after `k` executes — the
executed iteration indices are exactly `0..k` — and `txt2img` returns the
full decode of the latents produced through step `k` (the scheduler state
reached after step `k`), not an error. -/
theorem txt2img_cancellation (env : Env) (sched : Scheduler)
    (prompt : List String) (opts : StableDiffusionTxt2ImgOptions)
    (cb : StableDiffusionCallback) (text_embeddings : T3) (tr0 : Trace)
    (k : Nat) (s' : T4 × Rng)
    (hh : opts.height % 8 = 0) (hw : opts.width % 8 = 0)
    (hcb : opts.callback = some cb)
    (henc : encode_prompt env prompt (opts.guidanceScale > 1)
      opts.negativePrompt = (.ok text_embeddings, tr0))
    (hlen : opts.steps * sched.order ≤ (sched.timesteps opts.steps).length)
    (hk : k < (sched.timesteps opts.steps).length)
    (hs : statesAfter env sched (opts.guidanceScale > 1) opts.guidanceScale
      text_embeddings ((sched.timesteps opts.steps).take (k + 1))
      (initialLatents env sched prompt.length opts
        (opts.seed.getD env.threadSeed)) = .ok s')
    (hcont : ∀ j, j < k → ∃ sj,
      statesAfter env sched (opts.guidanceScale > 1) opts.guidanceScale
        text_embeddings ((sched.timesteps opts.steps).take (j + 1))
        (initialLatents env sched prompt.length opts
          (opts.seed.getD env.threadSeed)) = .ok sj ∧
      (cbFires cb (sched.timesteps opts.steps).length
        ((sched.timesteps opts.steps).length - opts.steps * sched.order)
        sched.order j = false ∨
       (runCallback env cb j ((sched.timesteps opts.steps).getD j 0)
         sj.1).1 = .ok true))
    (hfire : cbFires cb (sched.timesteps opts.steps).length
      ((sched.timesteps opts.steps).length - opts.steps * sched.order)
      sched.order k = true)
    (hcancel : (runCallback env cb k
      ((sched.timesteps opts.steps).getD k 0) s'.1).1 = .ok false) :
    (txt2img env sched prompt opts).res = (decode_latents env s'.1).1 ∧
    (txt2img env sched prompt opts).executed = List.range (k + 1) := by
  have hdim : (!(opts.height % 8 == 0) || !(opts.width % 8 == 0)) = false := by
    simp [hh, hw]
  obtain ⟨latf, rngf⟩ := s'
  have hloop := denoiseLoop_cancel env sched
    (decide (opts.guidanceScale > 1)) opts.guidanceScale text_embeddings cb
    ((sched.timesteps opts.steps).length - opts.steps * sched.order)
    (sched.timesteps opts.steps).length k (sched.timesteps opts.steps) 0
    (initialLatents env sched prompt.length opts
      (opts.seed.getD env.threadSeed)).1
    (initialLatents env sched prompt.length opts
      (opts.seed.getD env.threadSeed)).2
    (latf, rngf) hk hs
    (by
      intro j hj
      obtain ⟨sj, h1, h2⟩ := hcont j hj
      exact ⟨sj, h1, by simpa using h2⟩)
    (by simpa using hfire)
    (by simpa using hcancel)
  simp only [txt2img]
  rw [if_neg (by simp [hdim])]
  simp only [henc, hcb]
  rw [if_pos hlen]
  rw [hloop.1]
  constructor
  · rfl
  · show (denoiseLoop env sched (decide (opts.guidanceScale > 1))
      opts.guidanceScale text_embeddings (some cb)
      ((sched.timesteps opts.steps).length - opts.steps * sched.order)
      (sched.timesteps opts.steps).length (sched.timesteps opts.steps) 0
      (initialLatents env sched prompt.length opts
        (opts.seed.getD env.threadSeed)).1
      (initialLatents env sched prompt.length opts
        (opts.seed.getD env.threadSeed)).2).executed = List.range (k + 1)
    rw [hloop.2]
    simp

theorem txt2img_cancellation_witness :
    (txt2img envW schedW ["p"] optsCancel).res =
      (decode_latents envW
        (initialLatents envW schedW (["p"] : List String).length optsCancel
          (optsCancel.seed.getD envW.threadSeed)).1).1 ∧
    (txt2img envW schedW ["p"] optsCancel).executed = List.range (0 + 1) :=
  txt2img_cancellation envW schedW ["p"] optsCancel
    (.progress 1 (fun _ _ => false)) [[[0]]]
    [.load .textEncoder, .drop .textEncoder] 0
    (initialLatents envW schedW (["p"] : List String).length optsCancel
      (optsCancel.seed.getD envW.threadSeed))
    rfl rfl rfl (by decide) (by decide) (by decide) rfl
    (fun j hj => absurd hj (Nat.not_lt_zero j)) (by decide) rfl

end Diffusers
